import Mathlib

/-!
Verification of the AIA consultation scraper (`scrape_ai_act_feedback_playwright_v8.py`,
with the deprecated `scrape_ai_act_feedback_playwright_v7.py` and
`scrape_ai_act_feedback_pdfs.py` where the claims cite them).

The embedding is shallow: the rendering engine (Playwright) is an external
collaborator, so selector-query results, click outcomes, page text and HTTP
statuses are supplied by an environment record; every piece of Python logic
operating on those inputs (identifier derivation, sanitisation, the regex
filters, the strategy chain, the crawl loop with its seen set and page
fingerprints, the retry loop of the requests-based script) is translated
function by function.  Strings are modelled by Lean `String` viewed as its
list of characters; all character/string helpers are written structurally so
that every definition evaluates inside the kernel.
-/

/-- Inclusive bounds check on naturals, as a `Bool`. -/
def between (lo hi n : Nat) : Bool := Nat.ble lo n && Nat.ble n hi

/-- Characters kept verbatim by the Python character class `[a-zA-Z0-9._-]`
used in `sanitize` (v8 line 27) and the `re.sub` calls of v7. -/
def isSafeChar (c : Char) : Bool :=
  between 97 122 c.toNat || between 65 90 c.toNat || between 48 57 c.toNat ||
    c == '.' || c == '_' || c == '-'

/-- ASCII digit test (`\d` in the Python regexes). -/
def isDigitChar (c : Char) : Bool := between 48 57 c.toNat

/-- ASCII alphanumeric test (`[A-Za-z0-9]` in the v7 extension regex). -/
def isAlnumChar (c : Char) : Bool :=
  between 97 122 c.toNat || between 65 90 c.toNat || between 48 57 c.toNat

/-- Python whitespace stripped by `str.strip()`. -/
def isSpaceChar (c : Char) : Bool :=
  c == ' ' || c == '\t' || c == '\n' || c == '\x0d' || c == '\x0c' || c == '\x0b'

/-- `re.sub(r'[^a-zA-Z0-9._-]+', '_', s)`: each maximal run of unsafe
characters becomes a single underscore.  The Boolean flag records whether we
are inside a run whose underscore has already been emitted. -/
def collapseAux : Bool → List Char → List Char
  | _, [] => []
  | inRun, c :: cs =>
    if isSafeChar c then c :: collapseAux false cs
    else if inRun then collapseAux true cs
    else '_' :: collapseAux true cs

/-- The substitution step shared by v8's `sanitize` and v7's bare `re.sub`. -/
def collapseRuns (l : List Char) : List Char := collapseAux false l

/-- `str.strip(c)`: remove `c` from both ends of a character list. -/
def stripCharL (c : Char) (l : List Char) : List Char :=
  ((l.dropWhile (· == c)).reverse.dropWhile (· == c)).reverse

/-- v7's `re.sub(r"[^a-zA-Z0-9._-]+","_", s)` with no stripping/truncation
(v7 lines 133 and 179). -/
def subSafe (s : String) : String := ⟨collapseRuns s.data⟩

/-- `sanitize` of v8 (line 26-27):
`re.sub(r'[^a-zA-Z0-9._-]+', '_', s).strip('_')[:200]`. -/
def sanitize (s : String) : String :=
  ⟨(stripCharL '_' (collapseRuns s.data)).take 200⟩

/-- Lower-case an ASCII character, as Python `str.lower` does on ASCII. -/
def lowerChar (c : Char) : Char :=
  if between 65 90 c.toNat then Char.ofNat (c.toNat + 32) else c

/-- Lower-case a character list. -/
def toLowerL (l : List Char) : List Char := l.map lowerChar

/-- Does the list start with the given pattern? -/
def startsWithL : List Char → List Char → Bool
  | [], _ => true
  | _ :: _, [] => false
  | a :: as, b :: bs => a == b && startsWithL as bs

/-- Does the list end with the given pattern? -/
def endsWithL (p l : List Char) : Bool := startsWithL p.reverse l.reverse

/-- Substring search: does `p` occur contiguously inside the list? -/
def containsSeq (p : List Char) : List Char → Bool
  | [] => p.isEmpty
  | c :: t => startsWithL p (c :: t) || containsSeq p t

/-- `s.lower().endswith(".pdf")` (v8 line 91, pdfs.py line 145). -/
def endsWithPdfLower (s : String) : Bool := endsWithL ".pdf".data (toLowerL s.data)

/-- Python `str.strip()` (whitespace at both ends). -/
def strTrim (s : String) : String :=
  ⟨((s.data.dropWhile isSpaceChar).reverse.dropWhile isSpaceChar).reverse⟩

/-- `urlparse(u).path`: the characters after the `://`-delimited authority,
up to the query/fragment; for scheme-less strings the whole string up to the
query/fragment (the common-case behaviour of `urllib.parse.urlparse`). -/
def takeUntilQ : List Char → List Char
  | [] => []
  | c :: cs => if c == '?' || c == '#' then [] else c :: takeUntilQ cs

/-- Characters after the first occurrence of `"://"`, if any. -/
def afterSchemeSep : List Char → Option (List Char)
  | [] => none
  | ':' :: '/' :: '/' :: rest => some rest
  | _ :: t => afterSchemeSep t

/-- See `takeUntilQ`; models `urlparse(u).path`. -/
def urlPath (u : String) : String :=
  match afterSchemeSep u.data with
  | some rest => ⟨takeUntilQ (rest.dropWhile (fun c => !(c == '/')))⟩
  | none => ⟨takeUntilQ u.data⟩

/-- `p.rsplit('/', 1)[-1]` / `os.path.basename`: the segment after the last
slash (the whole string when there is no slash). -/
def lastSeg (p : String) : String :=
  ⟨(p.data.reverse.takeWhile (fun c => !(c == '/'))).reverse⟩

/-- The regex search `re.search(r'/(F\d+)_en$', u)` of v8 line 30: the URL
must end in `/F<digits>_en`; on success the captured `F<digits>` group. -/
def fIdOfUrl (u : String) : Option String :=
  match u.data.reverse with
  | 'n' :: 'e' :: '_' :: rest =>
    match rest.takeWhile isDigitChar with
    | [] => none
    | ds =>
      match rest.drop ds.length with
      | 'F' :: '/' :: _ => some ⟨'F' :: ds.reverse⟩
      | _ => none
  | _ => none

/-- `detail_id_from_url` of v8 (lines 29-31): the `F<digits>` token when the
URL has the detail shape, otherwise the sanitized last path segment. -/
def detail_id_from_url (u : String) : String :=
  match fIdOfUrl u with
  | some fid => fid
  | none => sanitize (lastSeg (urlPath u))

/-- Code-point comparison of characters (Python's `<` on one-char strings). -/
def charLtB (a b : Char) : Bool := Nat.blt a.toNat b.toNat

/-- Lexicographic `≤` on character lists, i.e. Python string comparison. -/
def strLeL : List Char → List Char → Bool
  | [], _ => true
  | _ :: _, [] => false
  | a :: as, b :: bs => if a == b then strLeL as bs else charLtB a b

/-- Python `≤` on strings. -/
def strLe (s t : String) : Bool := strLeL s.data t.data

/-- Insert a string into a `strLe`-sorted list. -/
def insertStr (s : String) : List String → List String
  | [] => [s]
  | t :: ts => if strLe s t then s :: t :: ts else t :: insertStr s ts

/-- Insertion sort by `strLe`; models Python `sorted` on lists of strings
(any correct sort yields the same list). -/
def sortStrs : List String → List String
  | [] => []
  | s :: ss => insertStr s (sortStrs ss)

/-! ## The v8 scraper: data model and crawl controller -/

/-- One rendered detail page, as the external rendering engine presents it
to v8's `process_detail` / `try_click_download` (lines 75-158).

* `navRaises` — `page.goto(url)` raises (e.g. a navigation timeout);
  `process_detail` has no handler, so the exception propagates to the
  `except` block of `run` (line 209).  This happens before the seen-check.
* `postRaises` — processing raises *after* the seen-check, i.e. one of
  the awaited operations between the early return and the normal return
  raises an exception the code does not swallow: a non-timeout error from
  `btn.click()` or `download.save_as` inside `try_click_download`, a
  final-fallback timeout or error in `extract_fallback_text`'s
  `page.inner_text('body')`, an `OSError` from `text_path.write_text`, or
  a non-`PWTimeoutError` from `parse_detail_meta` (e.g. a destroyed
  execution context).  By then the extraction chain has (at least
  partially) run, but the exception still propagates to `run`'s
  `except`, so no record is appended and the id is not marked seen.
  When the seen-check fires first, none of these operations is reached,
  so `postRaises` is irrelevant on the early-return path.
* `hasControl` — the `DETAIL_DOWNLOAD_SEL` locator appears within the
  2.5 s `wait_for` window (line 80).
* `clickDownload` — outcome of clicking the control under
  `expect_download`: `none` is the 15 s timeout, `some s` a captured
  download whose `suggested_filename` is `s` (the empty string models a
  falsy suggested name).
* `visibleText` — what `extract_fallback_text` returns (the
  `[role="main"]` / `main` / `body` inner-text chain, line 99-107).
* `metaTitle`, `metaSubmitter`, `metaDate` — what `parse_detail_meta`
  (lines 109-128) produces from the page: the title is always assigned
  (possibly empty), submitter/date only when their heuristic regex
  matches, hence the `Option`s.
* `anchors` — the `href`s of anchors visible on the rendered page.  The
  v8 code never queries them (it has no direct-link strategy); the field
  exists so that statements can speak about pages that do expose a
  direct file link. -/
structure DetailPage where
  navRaises : Bool
  postRaises : Bool
  hasControl : Bool
  clickDownload : Option String
  visibleText : String
  metaTitle : String
  metaSubmitter : Option String
  metaDate : Option String
  anchors : List String

/-- The record dict built by `process_detail` (v8 line 131): one row of the
inventory. -/
structure Rec where
  detail_url : String
  file_path : String
  text_path : String
  id : String
  title : String
  submitter : String
  date : String
deriving DecidableEq

/-- The freshly initialised record of v8 line 131, with the `id` filled in
at line 136. -/
def init_rec (url rid : String) : Rec :=
  { detail_url := url, file_path := "", text_path := "", id := rid,
    title := "", submitter := "", date := "" }

/-- `try_click_download` of v8 (lines 75-97).  Returns the saved path (or
`none` on a missing control / download timeout) together with the list of
paths written: on a captured download the code always calls
`download.save_as(dest)` — it never consults the filesystem first. -/
def try_click_download (pg : DetailPage) (download_dir rid : String) :
    Option String × List String :=
  if !pg.hasControl then (none, [])
  else
    match pg.clickDownload with
    | none => (none, [])
    | some sf =>
      let suggested := if sf = "" then rid ++ ".pdf" else sf
      let suggested :=
        if endsWithPdfLower suggested then suggested
        else sanitize suggested ++ ".pdf"
      let dest := download_dir ++ "/" ++ sanitize (rid ++ "__" ++ suggested)
      (some dest, [dest])

/-- Result of one `process_detail` call as observed by `run`:
the call raised, returned early on the seen-check (line 139-140), or ran
the extraction chain and returned a full record.  `raised` carries the
ghost flag `chainRan`: `false` when the exception struck at navigation
(before the seen-check), `true` when it struck after the seen-check, the
extraction chain having already run on the page. -/
inductive ProcResult where
  | raised (chainRan : Bool)
  | skipped (r : Rec)
  | extracted (r : Rec)
deriving DecidableEq

/-- `process_detail` of v8 (lines 130-158) for one already-rendered page:
initialise the record, derive the id, return early when the id is already
in the seen set, otherwise try the triggered download, fall back to
visible-text capture, then merge the parsed metadata. -/
def process_detail_page (pg : DetailPage) (outdir url : String)
    (seen : List String) : ProcResult :=
  if pg.navRaises then .raised false
  else
    let rid := detail_id_from_url url
    let rec0 := init_rec url rid
    if rid ∈ seen then .skipped rec0
    else if pg.postRaises then .raised true
    else
      let saved := (try_click_download pg (outdir ++ "/pdfs") rid).1
      let rec1 :=
        match saved with
        | some p => { rec0 with file_path := p }
        | none =>
          if strTrim pg.visibleText = "" then rec0
          else { rec0 with text_path := outdir ++ "/text/" ++ rid ++ ".txt" }
      .extracted { rec1 with
        title := pg.metaTitle,
        submitter := pg.metaSubmitter.getD rec1.submitter,
        date := pg.metaDate.getD rec1.date }

/-- The crawl's environment: what the site and the rendering engine feed
the controller.  `primaryLinks n` are the `href`s matched by
`INDEX_CARD_SEL` on index page `n`, `fallbackLinks n` those matched by the
broader fallback selector (v8 lines 48-63); `detail u` is the rendered
detail page behind URL `u`. -/
structure SiteEnv where
  primaryLinks : Nat → List String
  fallbackLinks : Nat → List String
  detail : String → DetailPage

/-- `get_detail_links_on_index` of v8 (lines 48-63): primary selector,
fallback when it yields nothing, then `sorted(set(links))`. -/
def get_detail_links_on_index (env : SiteEnv) (page_no : Nat) : List String :=
  let links := env.primaryLinks page_no
  let links := if links.isEmpty then env.fallbackLinks page_no else links
  sortStrs links.dedup

/-- `ids_here` of v8 line 183: `tuple(sorted(detail_id_from_url(u) for u in
detail_links))` — the page fingerprint used for loop detection. -/
def page_fingerprint (detail_links : List String) : List String :=
  sortStrs (detail_links.map detail_id_from_url)

/-- The controller's run state.  `records`, `seen` and `fingerprints` are
the `records` list, `seen_detail_ids` set and `seen_index_fingerprints` set
of v8 `run` (lines 165-167); `pagesVisited` counts iterations of the
`for page_no in range(1, max_pages + 1)` loop that were entered, and
`loopDetected` whether the `break` of line 190 fired.  `processed`,
`outcomes` and `extractedIds` are ghost instrumentation (none influences
control flow): the URLs for which `process_detail` was invoked, the same
processing events paired with whether that invocation raised, and the ids
for which the extraction chain ran (a normal return past the seen-check,
or a post-seen-check raise after the chain had run). -/
structure RunState where
  records : List Rec
  seen : List String
  fingerprints : List (List String)
  pagesVisited : Nat
  loopDetected : Bool
  processed : List String
  outcomes : List (String × Bool)
  extractedIds : List String
deriving DecidableEq

/-- The initial run state of v8 lines 165-167. -/
def initState : RunState :=
  { records := [], seen := [], fingerprints := [], pagesVisited := 0,
    loopDetected := false, processed := [], outcomes := [],
    extractedIds := [] }

/-- The inner `for u in new_links` loop of v8 `run` (lines 202-210): each
URL is handed to `process_detail`; on a normal return the record's id is
added to the seen set and the record appended; an exception is caught,
logged and the loop continues with the next URL. -/
def processEach (env : SiteEnv) (outdir : String) (st : RunState) :
    List String → RunState
  | [] => st
  | u :: us =>
    match process_detail_page (env.detail u) outdir u st.seen with
    | .raised chainRan =>
      processEach env outdir
        { st with
          processed := st.processed ++ [u],
          outcomes := st.outcomes ++ [(u, true)],
          extractedIds :=
            if chainRan then st.extractedIds ++ [detail_id_from_url u]
            else st.extractedIds } us
    | .skipped r =>
      processEach env outdir
        { st with
          processed := st.processed ++ [u],
          outcomes := st.outcomes ++ [(u, false)],
          seen := if r.id ∈ st.seen then st.seen else st.seen ++ [r.id],
          records := st.records ++ [r] } us
    | .extracted r =>
      processEach env outdir
        { st with
          processed := st.processed ++ [u],
          outcomes := st.outcomes ++ [(u, false)],
          seen := if r.id ∈ st.seen then st.seen else st.seen ++ [r.id],
          records := st.records ++ [r],
          extractedIds := st.extractedIds ++ [r.id] } us

/-- The page loop of v8 `run` (lines 178-213), iterating over the remaining
page numbers: collect the page's detail links; on an empty page just move
on; otherwise fingerprint the page, `break` if the fingerprint repeats,
record it, filter the links against the seen set, and process each new
link. -/
def runLoop (env : SiteEnv) (outdir : String) (st : RunState) :
    List Nat → RunState
  | [] => st
  | n :: ns =>
    let detail_links := get_detail_links_on_index env n
    let st1 := { st with pagesVisited := st.pagesVisited + 1 }
    if detail_links.isEmpty then runLoop env outdir st1 ns
    else
      let ids_here := page_fingerprint detail_links
      if ids_here ∈ st1.fingerprints then { st1 with loopDetected := true }
      else
        let st2 := { st1 with fingerprints := st1.fingerprints ++ [ids_here] }
        let new_links := detail_links.filter
          (fun u => !(st2.seen.contains (detail_id_from_url u)))
        runLoop env outdir (processEach env outdir st2 new_links) ns

/-- `run` of v8 (lines 160-227), minus the external serialisation of the
inventory: the page loop over `range(1, max_pages + 1)`. -/
def run (env : SiteEnv) (outdir : String) (max_pages : Nat) : RunState :=
  runLoop env outdir initState (List.range' 1 max_pages)

/-! ## The deprecated v7 scraper: extraction strategy chain -/

namespace V7

/-- The `($|\?)` tail of the v7 extension regex: end of string or a
question mark. -/
def endOrQ : List Char → Bool
  | [] => true
  | c :: _ => c == '?'

/-- The v7 file-extension regex `FILE_EXT = \.(pdf|doc|docx|zip)($|\?)`
(case-insensitive `search`), tested at one position of an already
lower-cased character list: a dot, one of the four extensions, then end of
string or a question mark. -/
def extHere (l : List Char) : Bool :=
  match l with
  | '.' :: rest =>
    (startsWithL "pdf".data rest && endOrQ (rest.drop 3)) ||
    (startsWithL "docx".data rest && endOrQ (rest.drop 4)) ||
    (startsWithL "doc".data rest && endOrQ (rest.drop 3)) ||
    (startsWithL "zip".data rest && endOrQ (rest.drop 3))
  | _ => false

/-- `FILE_EXT.search` over the whole (lower-cased) string. -/
def fileExtL : List Char → Bool
  | [] => false
  | c :: t => extHere (c :: t) || fileExtL t

/-- `FILE_EXT.search(s)` of v7 line 11 (the regex is compiled with `re.I`). -/
def fileExtB (s : String) : Bool := fileExtL (toLowerL s.data)

/-- `HINT = (attachment|download|enclosure|document|file|resource)` of v7
line 12, `re.I` search. -/
def hintB (s : String) : Bool :=
  let l := toLowerL s.data
  containsSeq "attachment".data l || containsSeq "download".data l ||
  containsSeq "enclosure".data l || containsSeq "document".data l ||
  containsSeq "file".data l || containsSeq "resource".data l

/-- `re.search(r"\.[A-Za-z0-9]{2,5}$", s)` of v7 line 131: the string ends
in a dot followed by a 2-to-5 character alphanumeric run. -/
def shortExtB (s : String) : Bool :=
  let r := s.data.reverse
  let run := r.takeWhile isAlnumChar
  between 2 5 run.length && ((r.drop run.length).head? == some '.')

/-- v7's output directory `OUTDIR = "data/raw_pdfs"` (line 8). -/
def OUTDIR : String := "data/raw_pdfs"

/-- One download control of v7's `click_and_capture_downloads` as the
rendering engine exposes it: `none` models a click whose
`expect_download` times out (or raises — both are `continue`d), `some d` a
captured download with its final URL and suggested filename. -/
structure Download where
  url : String
  suggested : String
deriving DecidableEq

/-- One rendered v7 detail page.

* `controls` — the matched download controls in DOM order (the primary
  `a.ecl-file__download[eclfiledownload]` locator, or the broader fallback
  when that matches nothing), with each click's outcome;
* `cssHits` — `href`s matched by the direct-link CSS selector of
  lines 163-166;
* `fetch` — `ctx.request.get(url)` by status code; `none` models the
  request raising. -/
structure Page where
  controls : List (Option Download)
  cssHits : List String
  fetch : String → Option Nat

/-- One row of v7's inventory (lines 137-144 and 193-217; the
`Source_Page` column, constant per index page, is omitted as external
formatting). -/
structure RecV7 where
  found_on : String
  detail_page : String
  file_url : String
  local_file : String
  status : String
deriving DecidableEq

/-- `click_and_capture_downloads` of v7 (lines 116-149): iterate over every
matched control, click it under `expect_download`; a timeout or error just
continues; a captured download gets the suggested filename (default
`file.bin`), keeps any recognised or short extension and otherwise gains
`.pdf`, is sanitised and saved, producing a `downloaded` record.  Returns
`saved_any` together with the records appended. -/
def click_step (detail_url : String) (acc : Bool × List RecV7)
    (c : Option Download) : Bool × List RecV7 :=
  match c with
  | none => acc
  | some dl =>
    let suggested := if dl.suggested = "" then "file.bin" else dl.suggested
    let suggested :=
      if fileExtB suggested then suggested
      else if shortExtB suggested then suggested
      else suggested ++ ".pdf"
    let dest := OUTDIR ++ "/" ++ subSafe suggested
    (true, acc.2 ++ [{ found_on := "detail_click", detail_page := detail_url,
                       file_url := dl.url, local_file := dest,
                       status := "downloaded" }])

/-- See `click_step`: the loop over the matched controls with
`saved_any = False` and no records appended initially. -/
def click_and_capture_downloads (pg : Page) (detail_url : String) :
    Bool × List RecV7 :=
  pg.controls.foldl (click_step detail_url) (false, [])

/-- `res.ok` of Playwright's `APIResponse`: status in the 200-299 range. -/
def resOk (s : Nat) : Bool := between 200 299 s

/-- The name computation of v7 lines 176-179 for a direct link:
`(url.split("/")[-1] or "file").split("?")[0]`, append `.pdf` unless a
recognised extension is present, then sanitise. -/
def direct_name (url : String) : String :=
  let seg := lastSeg url
  let seg := if seg = "" then "file" else seg
  let name : String := ⟨seg.data.takeWhile (fun c => !(c == '?'))⟩
  let name := if fileExtB name then name else name ++ ".pdf"
  subSafe name

/-- The body of the direct-link loop of v7 (lines 175-200) for one URL:
fetch it through the browser context; 2xx writes the file and records
`downloaded`, a non-2xx status records `http_<code>` with no file, an
exception records `download_error` with no file. -/
def direct_fetch_record (pg : Page) (detail_url url : String) : RecV7 :=
  let dest := OUTDIR ++ "/" ++ direct_name url
  match pg.fetch url with
  | some s =>
    if resOk s then
      { found_on := "detail_href", detail_page := detail_url, file_url := url,
        local_file := dest, status := "downloaded" }
    else
      { found_on := "detail_href", detail_page := detail_url, file_url := url,
        local_file := "", status := "http_" ++ toString s }
  | none =>
    { found_on := "detail_href", detail_page := detail_url, file_url := url,
      local_file := "", status := "download_error" }

/-- `collect_files_in_detail` of v7 (lines 151-217), the strategy chain for
one rendered detail page: triggered downloads first; if none saved, scan
the direct-link CSS hits, keep those passing the `FILE_EXT`/`HINT` regex
re-check, dedupe and sort, and fetch each; if that set is empty too, append
a single `no_file_found` record.  Returns the records appended for this
entity. -/
def collect_files_in_detail (pg : Page) (detail_url : String) : List RecV7 :=
  let clicked := click_and_capture_downloads pg detail_url
  if clicked.1 then clicked.2
  else
    let file_urls :=
      (pg.cssHits.filter (fun h => !(h == "") && (fileExtB h || hintB h))).dedup
    if !file_urls.isEmpty then
      clicked.2 ++ (sortStrs file_urls).map (direct_fetch_record pg detail_url)
    else
      clicked.2 ++ [{ found_on := "detail", detail_page := detail_url,
                      file_url := "", local_file := "",
                      status := "no_file_found" }]

end V7

/-! ## The deprecated requests-based script (`scrape_ai_act_feedback_pdfs.py`) -/

namespace Pdfs

/-- `RETRY = 3` of pdfs.py line 46. -/
def RETRY : Nat := 3

/-- The retry loop of `get` (pdfs.py lines 56-71), recursing on the number
of attempts left.  `resp attempt` is the outcome of the `attempt`-th
request: `none` models `requests.RequestException`, `some s` a response
with status code `s`.  Returns the final response status (or `none` after
the budget is exhausted) together with the list of backoff multipliers
passed to `sleep_jitter(mult=attempt)` — the ghost trace of the increasing
backoff. -/
def getGo (resp : Nat → Option Nat) : Nat → Nat → List Nat →
    Option Nat × List Nat
  | _, 0, backoffs => (none, backoffs)
  | attempt, fuel + 1, backoffs =>
    match resp attempt with
    | none => getGo resp (attempt + 1) fuel (backoffs ++ [attempt])
    | some s =>
      if s == 200 || s == 201 then (some s, backoffs)
      else if s == 429 || s == 502 || s == 503 || s == 504 then
        getGo resp (attempt + 1) fuel (backoffs ++ [attempt])
      else (some s, backoffs)

/-- `get` of pdfs.py (lines 56-71): up to `RETRY` attempts, success on
200/201, retry with backoff on 429/502/503/504 and on request exceptions,
give up immediately on any other status. -/
def get (resp : Nat → Option Nat) : Option Nat × List Nat :=
  getGo resp 1 RETRY []

/-- The destination filename of `download_pdf` (pdfs.py lines 143-148):
the URL path's basename when it already ends in `.pdf` (case-insensitive),
otherwise the whole sanitised path with `.pdf` appended. -/
def pdf_name (url : String) : String :=
  let name := lastSeg (urlPath url)
  if endsWithPdfLower name then name else subSafe (urlPath url) ++ ".pdf"

/-- `download_pdf` of pdfs.py (lines 140-163).  `fs` is the state of the
output directory at call time (`os.path.exists` / `os.path.getsize`).
Returns the local path, the status string, and whether the file was
(re-)written: an existing non-empty destination short-circuits to
`"exists"` with no fetch and no write; otherwise the retrying `get` runs
and only a final status of exactly 200 writes the body. -/
def download_pdf (fs : String → Option Nat) (resp : Nat → Option Nat)
    (outdir url : String) : Option String × String × Bool :=
  let dest := outdir ++ "/" ++ pdf_name url
  let existing := match fs dest with | some sz => Nat.blt 0 sz | none => false
  if existing then (some dest, "exists", false)
  else
    match (get resp).1 with
    | none => (none, "http_ERR", false)
    | some s =>
      if s == 200 then (some dest, "downloaded", true)
      else (none, "http_" ++ toString s, false)

end Pdfs

/-! ## Facts about the sort underlying `sorted(...)` -/

theorem char_eq_of_toNat_eq {a b : Char} (h : a.toNat = b.toNat) : a = b :=
  Char.ext (UInt32.ext h)

theorem strLeL_total : ∀ a b : List Char, strLeL a b = true ∨ strLeL b a = true
  | [], _ => Or.inl rfl
  | _ :: _, [] => Or.inr rfl
  | x :: xs, y :: ys => by
    by_cases hxy : x = y
    · subst hxy
      rcases strLeL_total xs ys with h | h
      · exact Or.inl (by simp [strLeL, h])
      · exact Or.inr (by simp [strLeL, h])
    · have hb : (x == y) = false := beq_eq_false_iff_ne.mpr hxy
      have hb' : (y == x) = false := beq_eq_false_iff_ne.mpr (Ne.symm hxy)
      have hne : x.toNat ≠ y.toNat := fun h => hxy (char_eq_of_toNat_eq h)
      rcases Nat.lt_or_ge x.toNat y.toNat with h | h
      · exact Or.inl (by simp [strLeL, hb, charLtB, Nat.blt_eq, h])
      · have h2 : y.toNat < x.toNat := Nat.lt_of_le_of_ne h (Ne.symm hne)
        exact Or.inr (by simp [strLeL, hb', charLtB, Nat.blt_eq, h2])

theorem strLeL_antisymm : ∀ a b : List Char,
    strLeL a b = true → strLeL b a = true → a = b
  | [], [] => fun _ _ => rfl
  | [], _ :: _ => fun _ h => by simp [strLeL] at h
  | _ :: _, [] => fun h _ => by simp [strLeL] at h
  | x :: xs, y :: ys => fun h1 h2 => by
    by_cases hxy : x = y
    · subst hxy
      simp only [strLeL, beq_self_eq_true, if_true] at h1 h2
      exact congrArg (x :: ·) (strLeL_antisymm xs ys h1 h2)
    · have hb : (x == y) = false := beq_eq_false_iff_ne.mpr hxy
      have hb' : (y == x) = false := beq_eq_false_iff_ne.mpr (Ne.symm hxy)
      simp [strLeL, hb, hb', charLtB, Nat.blt_eq] at h1 h2
      exact absurd h2 (Nat.not_lt.mpr (Nat.le_of_lt h1))

theorem strLeL_trans : ∀ a b c : List Char,
    strLeL a b = true → strLeL b c = true → strLeL a c = true
  | [], _, _ => fun _ _ => rfl
  | _ :: _, [], _ => fun h _ => by simp [strLeL] at h
  | _ :: _, _ :: _, [] => fun _ h => by simp [strLeL] at h
  | x :: xs, y :: ys, z :: zs => fun h1 h2 => by
    by_cases hxy : x = y
    · subst hxy
      by_cases hyz : x = z
      · subst hyz
        simp only [strLeL, beq_self_eq_true, if_true] at h1 h2 ⊢
        exact strLeL_trans xs ys zs h1 h2
      · have hb : (x == z) = false := beq_eq_false_iff_ne.mpr hyz
        simp [strLeL, hb] at h2 ⊢
        exact h2
    · have hxyb : (x == y) = false := beq_eq_false_iff_ne.mpr hxy
      by_cases hyz : y = z
      · subst hyz
        simp [strLeL, hxyb] at h1 ⊢
        exact h1
      · have hyzb : (y == z) = false := beq_eq_false_iff_ne.mpr hyz
        simp [strLeL, hxyb, hyzb, charLtB, Nat.blt_eq] at h1 h2
        have hlt : x.toNat < z.toNat := Nat.lt_trans h1 h2
        have hxz : x ≠ z := fun h => by
          subst h; exact Nat.lt_irrefl _ hlt
        have hxzb : (x == z) = false := beq_eq_false_iff_ne.mpr hxz
        simp [strLeL, hxzb, charLtB, Nat.blt_eq]
        exact hlt

theorem strLe_total (s t : String) : strLe s t = true ∨ strLe t s = true :=
  strLeL_total s.data t.data

theorem strLe_antisymm {s t : String} (h1 : strLe s t = true)
    (h2 : strLe t s = true) : s = t := by
  cases s; cases t
  exact congrArg String.mk (strLeL_antisymm _ _ h1 h2)

theorem strLe_trans {s t u : String} (h1 : strLe s t = true)
    (h2 : strLe t u = true) : strLe s u = true :=
  strLeL_trans s.data t.data u.data h1 h2

/-- The sort order as a relation on strings. -/
def strLeP (s t : String) : Prop := strLe s t = true

instance : IsAntisymm String strLeP := ⟨fun _ _ h1 h2 => strLe_antisymm h1 h2⟩

theorem insertStr_perm (s : String) : ∀ l, (insertStr s l).Perm (s :: l)
  | [] => List.Perm.refl _
  | t :: ts => by
    unfold insertStr
    split
    · exact List.Perm.refl _
    · exact ((insertStr_perm s ts).cons t).trans (List.Perm.swap s t ts)

theorem sortStrs_perm : ∀ l, (sortStrs l).Perm l
  | [] => List.Perm.refl _
  | s :: ss => (insertStr_perm s (sortStrs ss)).trans ((sortStrs_perm ss).cons s)

theorem mem_sortStrs {a : String} {l : List String} :
    a ∈ sortStrs l ↔ a ∈ l :=
  (sortStrs_perm l).mem_iff

theorem insertStr_sorted (s : String) : ∀ {l : List String},
    List.Sorted strLeP l → List.Sorted strLeP (insertStr s l)
  | [], _ => List.sorted_cons.mpr ⟨by simp, List.sorted_nil⟩
  | t :: ts, h => by
    rcases List.sorted_cons.mp h with ⟨hts, hsts⟩
    unfold insertStr
    split
    · rename_i hst
      refine List.sorted_cons.mpr ⟨?_, h⟩
      intro b hb
      rcases List.mem_cons.mp hb with rfl | hb
      · exact hst
      · exact strLe_trans hst (hts b hb)
    · rename_i hst
      have hts' : strLe t s = true := by
        rcases strLe_total s t with h' | h'
        · exact absurd h' hst
        · exact h'
      refine List.sorted_cons.mpr ⟨?_, insertStr_sorted s hsts⟩
      intro b hb
      rcases List.mem_cons.mp ((insertStr_perm s ts).mem_iff.mp hb) with rfl | hb
      · exact hts'
      · exact hts b hb

theorem sortStrs_sorted : ∀ l, List.Sorted strLeP (sortStrs l)
  | [] => List.sorted_nil
  | s :: ss => insertStr_sorted s (sortStrs_sorted ss)

theorem sortStrs_eq_of_perm {l1 l2 : List String} (h : l1.Perm l2) :
    sortStrs l1 = sortStrs l2 :=
  List.eq_of_perm_of_sorted
    ((sortStrs_perm l1).trans (h.trans (sortStrs_perm l2).symm))
    (sortStrs_sorted l1) (sortStrs_sorted l2)

/-! ## Structural lemmas about one `process_detail` call -/

theorem pdp_raised_cases {pg : DetailPage} {outdir url : String}
    {seen : List String} {b : Bool}
    (h : process_detail_page pg outdir url seen = .raised b) :
    pg.navRaises = true ∨ pg.postRaises = true := by
  cases hnav : pg.navRaises
  · cases hpost : pg.postRaises
    · exfalso
      unfold process_detail_page at h
      by_cases hm : detail_id_from_url url ∈ seen <;>
        simp [hnav, hpost, hm] at h
    · exact Or.inr rfl
  · exact Or.inl rfl

theorem pdp_raised_true {pg : DetailPage} {outdir url : String}
    {seen : List String}
    (h : process_detail_page pg outdir url seen = .raised true) :
    pg.navRaises = false ∧ pg.postRaises = true ∧
      detail_id_from_url url ∉ seen := by
  cases hnav : pg.navRaises
  · cases hpost : pg.postRaises
    · exfalso
      unfold process_detail_page at h
      by_cases hm : detail_id_from_url url ∈ seen <;>
        simp [hnav, hpost, hm] at h
    · by_cases hm : detail_id_from_url url ∈ seen
      · exfalso
        unfold process_detail_page at h
        simp [hnav, hm] at h
      · exact ⟨rfl, rfl, hm⟩
  · exfalso
    unfold process_detail_page at h
    simp [hnav] at h

theorem pdp_skipped {pg : DetailPage} {outdir url : String}
    {seen : List String} {r : Rec}
    (h : process_detail_page pg outdir url seen = .skipped r) :
    pg.navRaises = false ∧ detail_id_from_url url ∈ seen ∧
      r = init_rec url (detail_id_from_url url) := by
  cases hnav : pg.navRaises
  · by_cases hm : detail_id_from_url url ∈ seen
    · unfold process_detail_page at h
      simp [hnav, hm] at h
      exact ⟨rfl, hm, h.symm⟩
    · exfalso
      unfold process_detail_page at h
      cases hpost : pg.postRaises <;> simp [hnav, hm, hpost] at h
  · exfalso
    unfold process_detail_page at h
    simp [hnav] at h

theorem pdp_skipped_of {pg : DetailPage} {outdir url : String}
    {seen : List String} (hnav : pg.navRaises = false)
    (hm : detail_id_from_url url ∈ seen) :
    process_detail_page pg outdir url seen =
      .skipped (init_rec url (detail_id_from_url url)) := by
  unfold process_detail_page
  simp [hnav, hm]

theorem pdp_extracted {pg : DetailPage} {outdir url : String}
    {seen : List String} {r : Rec}
    (h : process_detail_page pg outdir url seen = .extracted r) :
    pg.navRaises = false ∧ detail_id_from_url url ∉ seen ∧
      r.id = detail_id_from_url url ∧ r.detail_url = url := by
  cases hnav : pg.navRaises
  · by_cases hm : detail_id_from_url url ∈ seen
    · exfalso
      unfold process_detail_page at h
      simp [hnav, hm] at h
    · cases hpost : pg.postRaises
      · refine ⟨rfl, hm, ?_⟩
        unfold process_detail_page at h
        simp only [hnav, Bool.false_eq_true, if_false, hm, hpost] at h
        rcases hs : (try_click_download pg (outdir ++ "/pdfs")
            (detail_id_from_url url)).1 with _ | p
        · rw [hs] at h
          by_cases ht : strTrim pg.visibleText = ""
          · simp [ht] at h
            rw [← h]
            exact ⟨rfl, rfl⟩
          · simp [ht] at h
            rw [← h]
            exact ⟨rfl, rfl⟩
        · rw [hs] at h
          simp at h
          rw [← h]
          exact ⟨rfl, rfl⟩
      · exfalso
        unfold process_detail_page at h
        simp [hnav, hm, hpost] at h
  · exfalso
    unfold process_detail_page at h
    simp [hnav] at h

theorem pdp_not_raised {pg : DetailPage} {outdir url : String}
    {seen : List String} (hnav : pg.navRaises = false)
    (hpost : pg.postRaises = false)
    (hm : detail_id_from_url url ∉ seen) :
    ∃ r, process_detail_page pg outdir url seen = .extracted r := by
  unfold process_detail_page
  simp [hnav, hpost, hm]

/-! ## Structural lemmas about the controller loops -/

theorem pe_preserved (env : SiteEnv) (outdir : String) : ∀ (us : List String)
    (st : RunState),
    (processEach env outdir st us).pagesVisited = st.pagesVisited ∧
    (processEach env outdir st us).fingerprints = st.fingerprints ∧
    (processEach env outdir st us).loopDetected = st.loopDetected
  | [], _ => ⟨rfl, rfl, rfl⟩
  | u :: us, st => by
    cases hp : process_detail_page (env.detail u) outdir u st.seen with
    | raised =>
      simpa only [processEach, hp] using pe_preserved env outdir us _
    | skipped r =>
      simpa only [processEach, hp] using pe_preserved env outdir us _
    | extracted r =>
      simpa only [processEach, hp] using pe_preserved env outdir us _

theorem pe_processed (env : SiteEnv) (outdir : String) : ∀ (us : List String)
    (st : RunState),
    (processEach env outdir st us).processed = st.processed ++ us
  | [], st => by simp [processEach]
  | u :: us, st => by
    cases hp : process_detail_page (env.detail u) outdir u st.seen with
    | raised =>
      simp only [processEach, hp, pe_processed env outdir us]
      simp
    | skipped r =>
      simp only [processEach, hp, pe_processed env outdir us]
      simp
    | extracted r =>
      simp only [processEach, hp, pe_processed env outdir us]
      simp

theorem pe_seen_mono (env : SiteEnv) (outdir : String) : ∀ (us : List String)
    (st : RunState) {x : String}, x ∈ st.seen →
    x ∈ (processEach env outdir st us).seen
  | [], _, _, hx => hx
  | u :: us, st, x, hx => by
    cases hp : process_detail_page (env.detail u) outdir u st.seen with
    | raised =>
      simp only [processEach, hp]
      exact pe_seen_mono env outdir us _ hx
    | skipped r =>
      simp only [processEach, hp]
      refine pe_seen_mono env outdir us _ ?_
      by_cases hr : r.id ∈ st.seen <;> simp [hr, hx]
    | extracted r =>
      simp only [processEach, hp]
      refine pe_seen_mono env outdir us _ ?_
      by_cases hr : r.id ∈ st.seen <;> simp [hr, hx]

theorem rl_pages_le (env : SiteEnv) (outdir : String) : ∀ (ns : List Nat)
    (st : RunState),
    (runLoop env outdir st ns).pagesVisited ≤ st.pagesVisited + ns.length
  | [], st => Nat.le_add_right _ _
  | n :: ns, st => by
    simp only [runLoop]
    split
    · calc (runLoop env outdir _ ns).pagesVisited
          ≤ st.pagesVisited + 1 + ns.length := rl_pages_le env outdir ns _
        _ = st.pagesVisited + (n :: ns).length := by
            simp [List.length_cons, Nat.add_assoc, Nat.add_comm 1]
    · split
      · simp only [List.length_cons]
        omega
      · calc (runLoop env outdir _ ns).pagesVisited
            ≤ (processEach env outdir _ _).pagesVisited + ns.length :=
              rl_pages_le env outdir ns _
          _ = st.pagesVisited + 1 + ns.length := by
              rw [(pe_preserved env outdir _ _).1]
          _ = st.pagesVisited + (n :: ns).length := by
              simp [List.length_cons, Nat.add_assoc, Nat.add_comm 1]

/-- The per-event bookkeeping invariant behind claims about inventory
rows, stated over the ghost outcome trace (`p.2 = true` means that
processing event raised): the recorded detail URLs are exactly the
non-raising processing events' URLs, in order; the `processed` trace is
the projection of the outcome trace; and every processing event either
raised or has its URL's id in the seen set. -/
def RecInv (st : RunState) : Prop :=
  st.records.map Rec.detail_url =
    (st.outcomes.filter (fun p => !p.2)).map Prod.fst ∧
  st.processed = st.outcomes.map Prod.fst ∧
  ∀ p ∈ st.outcomes, p.2 = true ∨ detail_id_from_url p.1 ∈ st.seen

theorem pe_rec_inv (env : SiteEnv) (outdir : String) : ∀ (us : List String)
    (st : RunState), RecInv st → RecInv (processEach env outdir st us)
  | [], _, h => h
  | u :: us, st, h => by
    rcases h with ⟨hrec, hproc, hseen⟩
    cases hp : process_detail_page (env.detail u) outdir u st.seen with
    | raised b =>
      simp only [processEach, hp]
      refine pe_rec_inv env outdir us _ ⟨?_, ?_, ?_⟩
      · simp [List.filter_append, hrec]
      · simp [hproc]
      · intro p hv
        rcases List.mem_append.mp hv with hv | hv
        · exact hseen p hv
        · rcases List.mem_singleton.mp hv with rfl
          exact Or.inl rfl
    | skipped r =>
      rcases pdp_skipped hp with ⟨hnav, hm, hr⟩
      simp only [processEach, hp]
      refine pe_rec_inv env outdir us _ ⟨?_, ?_, ?_⟩
      · have hurl : r.detail_url = u := by rw [hr]; rfl
        simp [List.filter_append, hrec, hurl]
      · simp [hproc]
      · intro p hv
        rcases List.mem_append.mp hv with hv | hv
        · rcases hseen p hv with h' | h'
          · exact Or.inl h'
          · refine Or.inr ?_
            by_cases hin : r.id ∈ st.seen <;> simp [hin, h']
        · rcases List.mem_singleton.mp hv with rfl
          refine Or.inr ?_
          by_cases hin : r.id ∈ st.seen <;> simp [hin, hm]
    | extracted r =>
      rcases pdp_extracted hp with ⟨hnav, hm, hid, hurl⟩
      simp only [processEach, hp]
      refine pe_rec_inv env outdir us _ ⟨?_, ?_, ?_⟩
      · simp [List.filter_append, hrec, hurl]
      · simp [hproc]
      · intro p hv
        rcases List.mem_append.mp hv with hv | hv
        · rcases hseen p hv with h' | h'
          · exact Or.inl h'
          · refine Or.inr ?_
            by_cases hin : r.id ∈ st.seen <;> simp [hin, h']
        · rcases List.mem_singleton.mp hv with rfl
          refine Or.inr ?_
          rw [← hid]
          by_cases hin : r.id ∈ st.seen <;> simp [hin]

theorem rl_rec_inv (env : SiteEnv) (outdir : String) : ∀ (ns : List Nat)
    (st : RunState), RecInv st → RecInv (runLoop env outdir st ns)
  | [], _, h => h
  | n :: ns, st, h => by
    simp only [runLoop]
    split
    · exact rl_rec_inv env outdir ns _ h
    · split
      · exact h
      · exact rl_rec_inv env outdir ns _ (pe_rec_inv env outdir _ _ h)

/-- The at-most-once invariant: the ids for which the extraction chain ran
are pairwise distinct, and each of them is in the seen set.  It is
preserved only on pages that cannot raise after the seen-check: a
post-seen-check raise runs the chain without marking the id seen. -/
def ExtrInv (st : RunState) : Prop :=
  st.extractedIds.Nodup ∧ ∀ x ∈ st.extractedIds, x ∈ st.seen

theorem pe_extr_inv (env : SiteEnv) (outdir : String)
    (hpost : ∀ u, (env.detail u).postRaises = false) : ∀ (us : List String)
    (st : RunState), ExtrInv st → ExtrInv (processEach env outdir st us)
  | [], _, h => h
  | u :: us, st, h => by
    rcases h with ⟨hnd, hsub⟩
    cases hp : process_detail_page (env.detail u) outdir u st.seen with
    | raised b =>
      cases b with
      | false =>
        simp only [processEach, hp]
        exact pe_extr_inv env outdir hpost us _ ⟨hnd, hsub⟩
      | true =>
        have hcontra := (pdp_raised_true hp).2.1
        rw [hpost u] at hcontra
        cases hcontra
    | skipped r =>
      simp only [processEach, hp]
      refine pe_extr_inv env outdir hpost us _ ⟨hnd, ?_⟩
      intro x hx
      by_cases hin : r.id ∈ st.seen <;> simp [hin, hsub x hx]
    | extracted r =>
      rcases pdp_extracted hp with ⟨_, hm, hid, _⟩
      simp only [processEach, hp]
      refine pe_extr_inv env outdir hpost us _ ⟨?_, ?_⟩
      · have hnotin : r.id ∉ st.extractedIds := by
          intro hin
          exact (hid ▸ hm) (hid ▸ hsub r.id hin)
        simp [List.nodup_append, hnd, hnotin]
      · intro x hx
        have hr : r.id ∉ st.seen := hid ▸ hm
        rcases List.mem_append.mp hx with hx | hx
        · simp [hr, hsub x hx]
        · rcases List.mem_singleton.mp hx with rfl
          simp [hr]

theorem rl_extr_inv (env : SiteEnv) (outdir : String)
    (hpost : ∀ u, (env.detail u).postRaises = false) : ∀ (ns : List Nat)
    (st : RunState), ExtrInv st → ExtrInv (runLoop env outdir st ns)
  | [], _, h => h
  | n :: ns, st, h => by
    simp only [runLoop]
    split
    · exact rl_extr_inv env outdir hpost ns _ h
    · split
      · exact h
      · exact rl_extr_inv env outdir hpost ns _ (pe_extr_inv env outdir hpost _ _ h)

/-- One iteration of the page loop on a page with no detail links
(v8 lines 184-185): nothing but the page counter changes. -/
theorem runLoop_cons_empty (env : SiteEnv) (outdir : String) (n : Nat)
    (ns : List Nat) (st : RunState)
    (he : (get_detail_links_on_index env n).isEmpty = true) :
    runLoop env outdir st (n :: ns) =
      runLoop env outdir { st with pagesVisited := st.pagesVisited + 1 } ns := by
  simp only [runLoop, he, if_true]

/-- One iteration of the page loop on a non-empty page with a fresh
fingerprint (v8 lines 186-210): the fingerprint is recorded, the links are
filtered against the seen set and processed. -/
theorem runLoop_cons_new (env : SiteEnv) (outdir : String) (n : Nat)
    (ns : List Nat) (st : RunState)
    (he : (get_detail_links_on_index env n).isEmpty = false)
    (hnotin : page_fingerprint (get_detail_links_on_index env n) ∉
      st.fingerprints) :
    runLoop env outdir st (n :: ns) =
      runLoop env outdir
        (processEach env outdir
          { st with
            pagesVisited := st.pagesVisited + 1,
            fingerprints := st.fingerprints ++
              [page_fingerprint (get_detail_links_on_index env n)] }
          ((get_detail_links_on_index env n).filter
            (fun u => !(st.seen.contains (detail_id_from_url u))))) ns := by
  simp only [runLoop, he, Bool.false_eq_true, if_false]
  rw [if_neg hnotin]

/-- One iteration of the page loop on a non-empty page whose fingerprint
was already observed (v8 lines 188-190): the loop `break`s. -/
theorem runLoop_cons_loop (env : SiteEnv) (outdir : String) (n : Nat)
    (ns : List Nat) (st : RunState)
    (he : (get_detail_links_on_index env n).isEmpty = false)
    (hin : page_fingerprint (get_detail_links_on_index env n) ∈
      st.fingerprints) :
    runLoop env outdir st (n :: ns) =
      { st with pagesVisited := st.pagesVisited + 1, loopDetected := true } := by
  simp only [runLoop, he, Bool.false_eq_true, if_false]
  rw [if_pos hin]

theorem rl_all_empty (env : SiteEnv) (outdir : String)
    (h : ∀ n, get_detail_links_on_index env n = []) : ∀ (ns : List Nat)
    (st : RunState),
    (runLoop env outdir st ns).pagesVisited = st.pagesVisited + ns.length ∧
    (runLoop env outdir st ns).fingerprints = st.fingerprints ∧
    (runLoop env outdir st ns).loopDetected = st.loopDetected ∧
    (runLoop env outdir st ns).records = st.records ∧
    (runLoop env outdir st ns).processed = st.processed
  | [], st => ⟨rfl, rfl, rfl, rfl, rfl⟩
  | n :: ns, st => by
    have hempty : (get_detail_links_on_index env n).isEmpty = true := by
      rw [h n]; rfl
    rw [runLoop_cons_empty env outdir n ns st hempty]
    have IH := rl_all_empty env outdir h ns
      { st with pagesVisited := st.pagesVisited + 1 }
    refine ⟨?_, IH.2⟩
    rw [IH.1]
    show st.pagesVisited + 1 + ns.length = st.pagesVisited + (ns.length + 1)
    omega

theorem rl_const_detect (env : SiteEnv) (outdir : String) (L : List String)
    (hL : ∀ n, get_detail_links_on_index env n = L) (hne : L ≠ [])
    (n m : Nat) (ns : List Nat) (st : RunState)
    (hfp : st.fingerprints = []) :
    (runLoop env outdir st (n :: m :: ns)).pagesVisited =
      st.pagesVisited + 2 ∧
    (runLoop env outdir st (n :: m :: ns)).loopDetected = true := by
  have hLe : L.isEmpty = false := by
    cases L
    · exact absurd rfl hne
    · rfl
  have he1 : (get_detail_links_on_index env n).isEmpty = false := by
    rw [hL n]; exact hLe
  have he2 : (get_detail_links_on_index env m).isEmpty = false := by
    rw [hL m]; exact hLe
  have hnotin : page_fingerprint (get_detail_links_on_index env n) ∉
      st.fingerprints := by
    rw [hfp]; exact List.not_mem_nil _
  rw [runLoop_cons_new env outdir n (m :: ns) st he1 hnotin]
  have hpres := pe_preserved env outdir
    ((get_detail_links_on_index env n).filter
      (fun u => !(st.seen.contains (detail_id_from_url u))))
    { st with
      pagesVisited := st.pagesVisited + 1,
      fingerprints := st.fingerprints ++
        [page_fingerprint (get_detail_links_on_index env n)] }
  have hin2 : page_fingerprint (get_detail_links_on_index env m) ∈
      (processEach env outdir
        { st with
          pagesVisited := st.pagesVisited + 1,
          fingerprints := st.fingerprints ++
            [page_fingerprint (get_detail_links_on_index env n)] }
        ((get_detail_links_on_index env n).filter
          (fun u => !(st.seen.contains (detail_id_from_url u))))).fingerprints := by
    rw [hpres.2.1]
    show page_fingerprint (get_detail_links_on_index env m) ∈
      st.fingerprints ++ [page_fingerprint (get_detail_links_on_index env n)]
    rw [hfp, hL n, hL m]
    simp
  rw [runLoop_cons_loop env outdir m ns _ he2 hin2]
  refine ⟨?_, rfl⟩
  show (processEach env outdir _ _).pagesVisited + 1 = st.pagesVisited + 2
  rw [hpres.1]

theorem sortStrs_ne_nil {l : List String} (h : l ≠ []) : sortStrs l ≠ [] := by
  intro hs
  have := (sortStrs_perm l).length_eq
  rw [hs] at this
  cases l
  · exact h rfl
  · simp at this

/-! ## Claim C1: termination within the page ceiling -/

/-- C1 — for every pagination environment the v8 `run` performs at most
`max_pages` page advances; moreover, for an environment that serves the
same non-empty index page forever, the loop-detection `break` fires on the
second page, so the run stops after exactly two advances whenever the
ceiling allows at least two. -/
theorem C1_run_terminates (env : SiteEnv) (outdir : String)
    (max_pages : Nat) :
    (run env outdir max_pages).pagesVisited ≤ max_pages ∧
    (∀ L, L ≠ [] → (∀ n, get_detail_links_on_index env n = L) →
      2 ≤ max_pages →
      (run env outdir max_pages).pagesVisited = 2 ∧
      (run env outdir max_pages).loopDetected = true) := by
  constructor
  · have h := rl_pages_le env outdir (List.range' 1 max_pages) initState
    simpa [run, initState] using h
  · intro L hne hL h2
    obtain ⟨k, hk⟩ : ∃ k, max_pages = k + 2 := by
      refine ⟨max_pages - 2, ?_⟩
      omega
    have hrange : List.range' 1 max_pages = 1 :: 2 :: List.range' 3 k := by
      rw [hk]
      rw [show k + 2 = (k + 1) + 1 from rfl, List.range'_succ]
      rw [show k + 1 = k + 1 from rfl, List.range'_succ]
    unfold run
    rw [hrange]
    exact rl_const_detect env outdir L hL hne 1 2 (List.range' 3 k)
      initState rfl

/-- Witness for `C1_run_terminates` at a concrete repeating environment:
one fixed index page listing a single entity, served forever, with a
ceiling of 60 pages. -/
def envRepeat : SiteEnv :=
  { primaryLinks := fun _ => ["https://site/feedback/F11111_en"],
    fallbackLinks := fun _ => [],
    detail := fun _ =>
      { navRaises := false, postRaises := false, hasControl := true,
        clickDownload := some "letter.pdf", visibleText := "",
        metaTitle := "", metaSubmitter := none, metaDate := none,
        anchors := [] } }

theorem C1_witness :
    (run envRepeat "data" 60).pagesVisited ≤ 60 ∧
    (run envRepeat "data" 60).pagesVisited = 2 ∧
    (run envRepeat "data" 60).loopDetected = true := by
  refine ⟨(C1_run_terminates envRepeat "data" 60).1, ?_⟩
  exact (C1_run_terminates envRepeat "data" 60).2
    ["https://site/feedback/F11111_en"] (by decide) (fun n => by rfl)
    (by decide)

/-! ## Claim C10: zero-link pages are never fingerprinted -/

/-- C10 — fingerprints are recorded only for pages with a non-empty link
list: when every index page yields zero detail links, no fingerprint is
ever added, the loop-detection stop never fires, and the run ends only at
the `max_pages` ceiling. -/
theorem C10_empty_pages_no_fingerprint (env : SiteEnv) (outdir : String)
    (max_pages : Nat)
    (h : ∀ n, env.primaryLinks n = [] ∧ env.fallbackLinks n = []) :
    (run env outdir max_pages).pagesVisited = max_pages ∧
    (run env outdir max_pages).fingerprints = [] ∧
    (run env outdir max_pages).loopDetected = false ∧
    (run env outdir max_pages).records = [] := by
  have hl : ∀ n, get_detail_links_on_index env n = [] := by
    intro n
    simp only [get_detail_links_on_index, (h n).1, (h n).2]
    rfl
  unfold run
  have hres := rl_all_empty env outdir hl (List.range' 1 max_pages) initState
  refine ⟨?_, hres.2.1, hres.2.2.1, hres.2.2.2.1⟩
  rw [hres.1]
  simp [initState, List.length_range']

/-- A site whose index pages never expose any detail link. -/
def envNoLinks : SiteEnv :=
  { primaryLinks := fun _ => [], fallbackLinks := fun _ => [],
    detail := fun _ =>
      { navRaises := false, postRaises := false, hasControl := false, clickDownload := none,
        visibleText := "", metaTitle := "", metaSubmitter := none,
        metaDate := none, anchors := [] } }

theorem C10_witness :
    (run envNoLinks "data" 7).pagesVisited = 7 ∧
    (run envNoLinks "data" 7).fingerprints = [] ∧
    (run envNoLinks "data" 7).loopDetected = false ∧
    (run envNoLinks "data" 7).records = [] :=
  C10_empty_pages_no_fingerprint envNoLinks "data" 7
    (fun _ => ⟨rfl, rfl⟩)

/-! ## Claim C4: one inventory row per terminal outcome -/

/-- C4 (amended) — for every environment, over the ghost trace of
processing events (`outcomes` pairs each processed URL with whether that
invocation raised, at navigation or after the seen-check): the recorded
detail URLs are exactly the non-raising processing events' URLs, in
order — one appended record per completed processing, nothing else — and
every processing event either raised or had its URL's id marked seen.  A
processing that raises yields no inventory record at all and marks
nothing seen, at every raise point of the source. -/
theorem C4_amended_record_per_outcome (env : SiteEnv) (outdir : String)
    (max_pages : Nat) :
    (run env outdir max_pages).records.map Rec.detail_url =
      (((run env outdir max_pages).outcomes).filter
        (fun p => !p.2)).map Prod.fst ∧
    (run env outdir max_pages).processed =
      ((run env outdir max_pages).outcomes).map Prod.fst ∧
    ((run env outdir max_pages).outcomes).all
      (fun p => p.2 ||
        decide (detail_id_from_url p.1 ∈ (run env outdir max_pages).seen)) =
      true := by
  unfold run
  have h := rl_rec_inv env outdir (List.range' 1 max_pages) initState
    ⟨rfl, rfl, by intro p hp; cases hp⟩
  refine ⟨h.1, h.2.1, List.all_eq_true.mpr ?_⟩
  intro p hp
  rcases h.2.2 p hp with h' | h'
  · simp [h']
  · simp [h']

/-- A site with a single index page whose one entity's detail navigation
raises. -/
def envC4 : SiteEnv :=
  { primaryLinks := fun _ => ["https://site/feedback/F404_en"],
    fallbackLinks := fun _ => [],
    detail := fun _ =>
      { navRaises := true, postRaises := false, hasControl := false, clickDownload := none,
        visibleText := "ignored", metaTitle := "", metaSubmitter := none,
        metaDate := none, anchors := [] } }

/-- C4 counterexample — the claim as stated is false: entity `F404` enters
extraction (its URL is processed), its processing raises, and then no
inventory record is appended and its id is not marked seen: the failure is
dropped from the inventory (only logged to stdout). -/
theorem C4_counterexample :
    (run envC4 "data" 1).processed = ["https://site/feedback/F404_en"] ∧
    (run envC4 "data" 1).records = [] ∧
    (run envC4 "data" 1).seen = [] := by
  decide

/-! ## Claim C2: at-most-once extraction -/

/-- C2 (amended) — in every run over an environment whose detail pages
cannot raise after the seen-check (exceptions, if any, happen at
navigation, before the extraction chain), the chain runs at most once per
EntityId: the ids for which `process_detail` went past the seen-check are
pairwise distinct.  The hypothesis is necessary: a raise after the chain
ran (a non-timeout click/save error, a text-write failure, a
non-timeout metadata error) skips the seen-marking, and a later sighting
of the same id reruns the chain — see `postRaise_reruns_chain`.  The
stated seen-set mechanism likewise holds only for first sightings that
complete without an exception; see the counterexample. -/
theorem C2_amended_at_most_once (env : SiteEnv) (outdir : String)
    (max_pages : Nat)
    (hpost : ∀ u, (env.detail u).postRaises = false) (id : String) :
    ((run env outdir max_pages).extractedIds).count id ≤ 1 := by
  unfold run
  have h := rl_extr_inv env outdir hpost (List.range' 1 max_pages) initState
    ⟨List.nodup_nil, by intro x hx; cases hx⟩
  exact List.nodup_iff_count_le_one.mp h.1 id

/-- A run in which entity `F1`'s first sighting (page 1, URL variant `b`)
raises during navigation, while page 2 lists `F1` again under URL variant
`a` together with a fresh `F2`. -/
def envC2 : SiteEnv :=
  { primaryLinks := fun n =>
      if n = 1 then ["https://b/F1_en"]
      else ["https://a/F1_en", "https://a/F2_en"],
    fallbackLinks := fun _ => [],
    detail := fun u =>
      { navRaises := u == "https://b/F1_en", postRaises := false, hasControl := true,
        clickDownload := some "letter.pdf", visibleText := "",
        metaTitle := "", metaSubmitter := none, metaDate := none,
        anchors := [] } }

/-- C2 counterexample — the claim as stated is false: `F1` appears on two
index pages, but after its first sighting (which raised) its id is not in
the seen set, so the later sighting is not filtered out: the run processes
a URL with id `F1` again and the extraction chain runs for `F1` at the
second sighting. -/
theorem C2_counterexample :
    detail_id_from_url "https://b/F1_en" = "F1" ∧
    detail_id_from_url "https://a/F1_en" = "F1" ∧
    (run envC2 "data" 2).processed =
      ["https://b/F1_en", "https://a/F1_en", "https://a/F2_en"] ∧
    (run envC2 "data" 2).extractedIds = ["F1", "F2"] := by
  decide

theorem C2_witness :
    ((run envC2 "data" 2).extractedIds).count "F1" ≤ 1 :=
  C2_amended_at_most_once envC2 "data" 2 (fun _ => rfl) "F1"

/-- Like `envC2`, but `F1`'s first sighting raises *after* the seen-check
(a save/write/metadata error once the chain has run) instead of at
navigation. -/
def envPostRaise : SiteEnv :=
  { primaryLinks := fun n =>
      if n = 1 then ["https://b/F1_en"]
      else ["https://a/F1_en", "https://a/F2_en"],
    fallbackLinks := fun _ => [],
    detail := fun u =>
      { navRaises := false, postRaises := u == "https://b/F1_en",
        hasControl := true, clickDownload := some "letter.pdf",
        visibleText := "", metaTitle := "", metaSubmitter := none,
        metaDate := none, anchors := [] } }

/-- Why `C2_amended_at_most_once` needs its no-post-raise hypothesis: when
`F1`'s first processing raises after the seen-check (the chain had run),
the id is not marked seen, and the next sighting runs the chain for `F1` a
second time. -/
theorem postRaise_reruns_chain :
    (run envPostRaise "data" 2).extractedIds = ["F1", "F1", "F2"] ∧
    ((run envPostRaise "data" 2).extractedIds).count "F1" = 2 ∧
    (run envPostRaise "data" 2).records.length = 2 := by
  decide

/-! ## Claim C9: intra-page duplicate ids still produce a row each -/

/-- C9 — when two distinct URLs in the same new-link batch map to the same
EntityId and the first one's processing completes, the second is not
extracted — `process_detail` returns early on the seen-check — but its
early-return record, with empty `file_path`, `text_path`, `title`,
`submitter` and `date`, is still appended to the inventory, so the
inventory carries two rows for the id of which only the first can hold
extraction output (the extraction chain ran exactly once for the id). -/
theorem C9_duplicate_id_rows (env : SiteEnv) (outdir : String)
    (st : RunState) (u1 u2 : String) (_hne : u1 ≠ u2)
    (hid : detail_id_from_url u1 = detail_id_from_url u2)
    (h1 : (env.detail u1).navRaises = false)
    (h1post : (env.detail u1).postRaises = false)
    (h2 : (env.detail u2).navRaises = false)
    (hseen : detail_id_from_url u1 ∉ st.seen) :
    ∃ r1, (processEach env outdir st [u1, u2]).records =
        st.records ++ [r1, init_rec u2 (detail_id_from_url u2)] ∧
      (processEach env outdir st [u1, u2]).extractedIds =
        st.extractedIds ++ [detail_id_from_url u1] := by
  obtain ⟨r1, hr1⟩ :=
    @pdp_not_raised (env.detail u1) outdir u1 st.seen h1 h1post hseen
  have hprops := pdp_extracted hr1
  have hid1 : r1.id = detail_id_from_url u1 := hprops.2.2.1
  have hnotin : r1.id ∉ st.seen := by rw [hid1]; exact hseen
  have hm2 : detail_id_from_url u2 ∈ st.seen ++ [r1.id] := by
    refine List.mem_append_right _ ?_
    rw [hid1, hid]
    exact List.mem_singleton.mpr rfl
  refine ⟨r1, ?_⟩
  simp only [processEach, hr1, if_neg hnotin]
  rw [pdp_skipped_of h2 hm2]
  have hm2' : (init_rec u2 (detail_id_from_url u2)).id ∈ st.seen ++ [r1.id] :=
    hm2
  simp only [processEach, if_pos hm2']
  simp [List.append_assoc]
  exact hid1

/-- The environment for the C9 witness: one batch contains two URL
variants of entity `F7`. -/
def envC9 : SiteEnv :=
  { primaryLinks := fun _ => ["https://a/F7_en", "https://b/F7_en"],
    fallbackLinks := fun _ => [],
    detail := fun _ =>
      { navRaises := false, postRaises := false, hasControl := true,
        clickDownload := some "letter.pdf", visibleText := "",
        metaTitle := "T", metaSubmitter := some "Org", metaDate := none,
        anchors := [] } }

theorem C9_witness :
    ∃ r1, (processEach envC9 "data" initState
        ["https://a/F7_en", "https://b/F7_en"]).records =
        initState.records ++
          [r1, init_rec "https://b/F7_en"
            (detail_id_from_url "https://b/F7_en")] ∧
      (processEach envC9 "data" initState
        ["https://a/F7_en", "https://b/F7_en"]).extractedIds =
        initState.extractedIds ++ [detail_id_from_url "https://a/F7_en"] :=
  C9_duplicate_id_rows envC9 "data" initState
    "https://a/F7_en" "https://b/F7_en" (by decide) (by decide) (by decide)
    (by decide) (by decide) (by decide)

/-! ## Claim C3: strategy priority -/

theorem v7_click_mono (d : String) : ∀ (cs : List (Option V7.Download))
    (acc : Bool × List V7.RecV7), acc.1 = true →
    (List.foldl (V7.click_step d) acc cs).1 = true
  | [], _, h => h
  | c :: cs, acc, h => by
    cases c with
    | none =>
      simpa only [List.foldl_cons, V7.click_step] using
        v7_click_mono d cs acc h
    | some dl =>
      simp only [List.foldl_cons, V7.click_step]
      exact v7_click_mono d cs _ rfl

theorem v7_click_false (d : String) : ∀ (cs : List (Option V7.Download))
    (acc : Bool × List V7.RecV7),
    (List.foldl (V7.click_step d) acc cs).1 = false →
    List.foldl (V7.click_step d) acc cs = acc
  | [], _, _ => rfl
  | c :: cs, acc, h => by
    cases c with
    | none =>
      simp only [List.foldl_cons, V7.click_step] at h ⊢
      exact v7_click_false d cs acc h
    | some dl =>
      exfalso
      simp only [List.foldl_cons, V7.click_step] at h
      rw [v7_click_mono d cs _ rfl] at h
      cases h

theorem v7_click_false_nil {pg : V7.Page} {d : String}
    (h : (V7.click_and_capture_downloads pg d).1 = false) :
    (V7.click_and_capture_downloads pg d).2 = [] := by
  unfold V7.click_and_capture_downloads at h ⊢
  rw [v7_click_false d pg.controls (false, []) h]

/-- C3 (amended) — the strategy priority, as each script implements it.
For v8's `process_detail`:
1. the page's anchors are never consulted, so a page exposing both a
   triggerable download control and a direct file-type link records only
   the triggered-download result;
2. a triggerable control whose click yields a download makes the record's
   `file_path` the triggered destination, with no text capture;
3. a page with no triggerable control falls through to visible-text
   capture — even when a direct file-type link is present, since v8 has no
   direct-link strategy.
For the deprecated v7 `collect_files_in_detail` (the only script with a
direct-link stage):
4. a successful triggered download short-circuits the direct-link scan;
5. with no successful click and one matching direct file link, that link
   is fetched through the session context and a 2xx answer saves its bytes
   as a `downloaded` record;
6. with neither, the appended record is `no_file_found` — v7 has no text
   capture. -/
theorem C3_amended_strategy_priority :
    (∀ (pg : DetailPage) (l : List String) (outdir url : String)
      (seen : List String),
      process_detail_page { pg with anchors := l } outdir url seen =
        process_detail_page pg outdir url seen) ∧
    (∀ (pg : DetailPage) (outdir url : String) (seen : List String)
      (sf : String), pg.navRaises = false → pg.postRaises = false →
      pg.hasControl = true →
      pg.clickDownload = some sf → detail_id_from_url url ∉ seen →
      ∃ d r, try_click_download pg (outdir ++ "/pdfs")
          (detail_id_from_url url) = (some d, [d]) ∧
        process_detail_page pg outdir url seen = .extracted r ∧
        r.file_path = d ∧ r.text_path = "") ∧
    (∀ (pg : DetailPage) (outdir url : String) (seen : List String),
      pg.navRaises = false → pg.postRaises = false → pg.hasControl = false →
      detail_id_from_url url ∉ seen → strTrim pg.visibleText ≠ "" →
      ∃ r, process_detail_page pg outdir url seen = .extracted r ∧
        r.file_path = "" ∧
        r.text_path = outdir ++ "/text/" ++ detail_id_from_url url ++ ".txt") ∧
    (∀ (pg : V7.Page) (durl : String),
      (V7.click_and_capture_downloads pg durl).1 = true →
      V7.collect_files_in_detail pg durl =
        (V7.click_and_capture_downloads pg durl).2) ∧
    (∀ (pg : V7.Page) (durl url0 : String),
      (V7.click_and_capture_downloads pg durl).1 = false →
      pg.cssHits = [url0] → url0 ≠ "" → V7.fileExtB url0 = true →
      pg.fetch url0 = some 200 →
      V7.collect_files_in_detail pg durl =
        [{ found_on := "detail_href", detail_page := durl, file_url := url0,
           local_file := V7.OUTDIR ++ "/" ++ V7.direct_name url0,
           status := "downloaded" }]) ∧
    (∀ (pg : V7.Page) (durl : String),
      (V7.click_and_capture_downloads pg durl).1 = false →
      pg.cssHits = [] →
      V7.collect_files_in_detail pg durl =
        [{ found_on := "detail", detail_page := durl, file_url := "",
           local_file := "", status := "no_file_found" }]) := by
  refine ⟨?_, ?_, ?_, ?_, ?_, ?_⟩
  · intro pg l outdir url seen
    cases pg
    rfl
  · intro pg outdir url seen sf hnav hpost hctl hclick hseen
    obtain ⟨d, hd⟩ : ∃ d, try_click_download pg (outdir ++ "/pdfs")
        (detail_id_from_url url) = (some d, [d]) := by
      unfold try_click_download
      rw [hctl, hclick]
      exact ⟨_, rfl⟩
    refine ⟨d, ?_⟩
    unfold process_detail_page
    simp only [hnav, hpost, Bool.false_eq_true, if_false]
    rw [if_neg hseen, hd]
    refine ⟨_, rfl, rfl, ?_, ?_⟩ <;> simp [init_rec]
  · intro pg outdir url seen hnav hpost hctl hseen htxt
    unfold process_detail_page
    simp only [hnav, hpost, Bool.false_eq_true, if_false]
    rw [if_neg hseen]
    unfold try_click_download
    rw [hctl]
    simp only [Bool.not_false, if_true]
    rw [if_neg htxt]
    refine ⟨_, rfl, ?_, ?_⟩ <;> simp [init_rec]
  · intro pg durl hclick
    unfold V7.collect_files_in_detail
    rw [if_pos hclick]
  · intro pg durl url0 hclick hcss hne hext hfetch
    have hrecs := v7_click_false_nil hclick
    unfold V7.collect_files_in_detail
    rw [if_neg (by rw [hclick]; exact Bool.false_ne_true), hcss, hrecs]
    have hfil : (([url0] : List String).filter
        (fun h => !(h == "") && (V7.fileExtB h || V7.hintB h))).dedup =
        [url0] := by
      simp [List.filter, hext, beq_eq_false_iff_ne.mpr hne]
    rw [hfil]
    simp only [List.isEmpty_cons, Bool.not_false, if_true, List.nil_append,
      sortStrs, insertStr, List.map_cons, List.map_nil]
    simp only [V7.direct_fetch_record, hfetch]
    rfl
  · intro pg durl hclick hcss
    have hrecs := v7_click_false_nil hclick
    unfold V7.collect_files_in_detail
    rw [if_neg (by rw [hclick]; exact Bool.false_ne_true), hcss, hrecs]
    rfl

/-- A v8 detail page exposing both a triggerable download control and a
direct `.pdf` link. -/
def pgBoth : DetailPage :=
  { navRaises := false, postRaises := false, hasControl := true, clickDownload := some "paper.pdf",
    visibleText := "body text", metaTitle := "", metaSubmitter := none,
    metaDate := none, anchors := ["https://x/direct.pdf"] }

/-- A v8 detail page exposing only a direct `.pdf` link: no triggerable
control, but rendered text. -/
def pgOnlyLink : DetailPage :=
  { navRaises := false, postRaises := false, hasControl := false, clickDownload := none,
    visibleText := "Hello", metaTitle := "", metaSubmitter := none,
    metaDate := none, anchors := ["https://x/direct.pdf"] }

/-- A v7 detail page with both a working download control and a direct
link. -/
def pgV7Both : V7.Page :=
  { controls := [some { url := "https://x/trig.pdf", suggested := "trig.pdf" }],
    cssHits := ["https://x/direct.pdf"], fetch := fun _ => some 200 }

/-- A v7 detail page whose only control click times out but which has a
direct `.pdf` link answering 200. -/
def pgV7Link : V7.Page :=
  { controls := [none], cssHits := ["https://x/direct.pdf"],
    fetch := fun _ => some 200 }

/-- A v7 detail page with neither a working control nor a direct link. -/
def pgV7None : V7.Page :=
  { controls := [none], cssHits := [], fetch := fun _ => some 200 }

theorem C3_witness :
    (process_detail_page { pgBoth with anchors := ["https://y/other.docx"] }
        "data" "https://x/F9_en" [] =
      process_detail_page pgBoth "data" "https://x/F9_en" []) ∧
    (∃ d r, try_click_download pgBoth ("data" ++ "/pdfs")
        (detail_id_from_url "https://x/F9_en") = (some d, [d]) ∧
      process_detail_page pgBoth "data" "https://x/F9_en" [] = .extracted r ∧
      r.file_path = d ∧ r.text_path = "") ∧
    (∃ r, process_detail_page pgOnlyLink "data" "https://x/F9_en" [] =
        .extracted r ∧ r.file_path = "" ∧
      r.text_path = "data" ++ "/text/" ++
        detail_id_from_url "https://x/F9_en" ++ ".txt") ∧
    (V7.collect_files_in_detail pgV7Both "https://x/F9_en" =
      (V7.click_and_capture_downloads pgV7Both "https://x/F9_en").2) ∧
    (V7.collect_files_in_detail pgV7Link "https://x/F9_en" =
      [{ found_on := "detail_href", detail_page := "https://x/F9_en",
         file_url := "https://x/direct.pdf",
         local_file := V7.OUTDIR ++ "/" ++ V7.direct_name "https://x/direct.pdf",
         status := "downloaded" }]) ∧
    (V7.collect_files_in_detail pgV7None "https://x/F9_en" =
      [{ found_on := "detail", detail_page := "https://x/F9_en",
         file_url := "", local_file := "", status := "no_file_found" }]) := by
  refine ⟨?_, ?_, ?_, ?_, ?_, ?_⟩
  · exact C3_amended_strategy_priority.1 pgBoth ["https://y/other.docx"]
      "data" "https://x/F9_en" []
  · exact C3_amended_strategy_priority.2.1 pgBoth "data" "https://x/F9_en" []
      "paper.pdf" rfl rfl rfl rfl (by decide)
  · exact C3_amended_strategy_priority.2.2.1 pgOnlyLink "data"
      "https://x/F9_en" [] rfl rfl rfl (by decide) (by decide)
  · exact C3_amended_strategy_priority.2.2.2.1 pgV7Both "https://x/F9_en"
      (by decide)
  · exact C3_amended_strategy_priority.2.2.2.2.1 pgV7Link "https://x/F9_en"
      "https://x/direct.pdf" (by decide) rfl (by decide) (by decide) rfl
  · exact C3_amended_strategy_priority.2.2.2.2.2 pgV7None "https://x/F9_en"
      (by decide) rfl

/-- C3 counterexample — the claim as stated is false for the current (v8)
script: a detail page exposing only a direct file-type link and no
triggerable control does not get that link's bytes fetched and saved;
v8 falls through to visible-text capture instead (`file_path` stays
empty, `text_path` is set). -/
theorem C3_counterexample :
    pgOnlyLink.anchors = ["https://x/direct.pdf"] ∧
    V7.fileExtB "https://x/direct.pdf" = true ∧
    pgOnlyLink.hasControl = false ∧
    process_detail_page pgOnlyLink "data" "https://x/F9_en" [] =
      .extracted
        { detail_url := "https://x/F9_en",
          file_path := "",
          text_path := "data/text/F9.txt",
          id := "F9",
          title := "",
          submitter := "",
          date := "" } := by
  decide

/-! ## Claim C5: idempotent re-run / existing-artifact reuse -/

/-- A detail page whose download control yields a capture suggested as
`a.pdf` for entity `F1`. -/
def pgC5 : DetailPage :=
  { navRaises := false, postRaises := false, hasControl := true, clickDownload := some "a.pdf",
    visibleText := "", metaTitle := "", metaSubmitter := none,
    metaDate := none, anchors := [] }

/-- C5 counterexample — the claim as stated is false for the cited v8
strategy: `try_click_download` takes no account of what is already on disk
(the function has no filesystem input at all, mirroring the code, which
calls `download.save_as(dest)` unconditionally); on any successful capture
it writes its destination — here `data/pdfs/F1__a.pdf` — rather than
declining when that path already holds a non-empty file. -/
theorem C5_counterexample :
    try_click_download pgC5 "data/pdfs" "F1" =
      (some "data/pdfs/F1__a.pdf", ["data/pdfs/F1__a.pdf"]) := by
  decide

/-- C5 (amended) — v8's triggered-download strategy always writes its
destination on success (no existing-file check), while the existing-file
reuse described by the claim exists only in the deprecated requests-based
script: `download_pdf` returns the existing path with status `exists` and
performs no fetch and no write whenever the destination already holds a
non-empty file. -/
theorem C5_amended_reuse_only_in_pdfs :
    (∀ (pg : DetailPage) (dir rid d : String),
      (try_click_download pg dir rid).1 = some d →
      (try_click_download pg dir rid).2 = [d]) ∧
    (∀ (fs : String → Option Nat) (resp : Nat → Option Nat)
      (outdir url : String) (n : Nat),
      fs (outdir ++ "/" ++ Pdfs.pdf_name url) = some (n + 1) →
      Pdfs.download_pdf fs resp outdir url =
        (some (outdir ++ "/" ++ Pdfs.pdf_name url), "exists", false)) := by
  constructor
  · intro pg dir rid d h
    unfold try_click_download at h ⊢
    cases hc : pg.hasControl
    · simp [hc] at h
    · cases hk : pg.clickDownload with
      | none => simp [hc, hk] at h
      | some sf =>
        simp [hc, hk] at h ⊢
        exact h
  · intro fs resp outdir url n h
    simp only [Pdfs.download_pdf, h]
    rw [if_pos (by simp [Nat.blt_eq] : (Nat.blt 0 (n + 1)) = true)]

/-- Witness inputs for `C5_amended_reuse_only_in_pdfs`: a filesystem on
which the computed destination `data/raw_pdfs/a.pdf` already holds five
bytes. -/
def fsExisting : String → Option Nat :=
  fun p => if p == "data/raw_pdfs/a.pdf" then some 5 else none

theorem C5_witness :
    (try_click_download pgC5 "data/pdfs" "F1").2 = ["data/pdfs/F1__a.pdf"] ∧
    Pdfs.download_pdf fsExisting (fun _ => some 200) "data/raw_pdfs"
      "https://x/a.pdf" = (some ("data/raw_pdfs" ++ "/" ++
        Pdfs.pdf_name "https://x/a.pdf"), "exists", false) := by
  constructor
  · exact C5_amended_reuse_only_in_pdfs.1 pgC5 "data/pdfs" "F1"
      "data/pdfs/F1__a.pdf" (by decide)
  · exact C5_amended_reuse_only_in_pdfs.2 fsExisting (fun _ => some 200)
      "data/raw_pdfs" "https://x/a.pdf" 4 (by decide)

/-! ## Claim C6: bounded retry with backoff -/

/-- A site with one entity whose detail navigation times out (raises). -/
def envC6 : SiteEnv :=
  { primaryLinks := fun _ => ["https://site/feedback/F503_en"],
    fallbackLinks := fun _ => [],
    detail := fun _ =>
      { navRaises := true, postRaises := false, hasControl := false, clickDownload := none,
        visibleText := "", metaTitle := "", metaSubmitter := none,
        metaDate := none, anchors := [] } }

/-- C6 counterexample — the claim as stated is false for the v8 crawl
loop it cites: an entity whose navigation raises a transient timeout is
processed exactly once (no retry), its outcome is not downgraded to any
`Error` record — no record is appended at all — and the run just moves
on. -/
theorem C6_counterexample :
    (run envC6 "data" 1).processed = ["https://site/feedback/F503_en"] ∧
    (run envC6 "data" 1).records = [] := by
  decide

theorem getGo_backoffs (resp : Nat → Option Nat) : ∀ (f a : Nat)
    (bs : List Nat), ∃ k, k ≤ f ∧
    (Pdfs.getGo resp a f bs).2 = bs ++ List.range' a k
  | 0, a, bs => ⟨0, Nat.le_refl 0, by simp [Pdfs.getGo]⟩
  | f + 1, a, bs => by
    rcases h : resp a with _ | s
    · obtain ⟨k, hk, he⟩ := getGo_backoffs resp f (a + 1) (bs ++ [a])
      refine ⟨k + 1, Nat.succ_le_succ hk, ?_⟩
      simp only [Pdfs.getGo, h]
      rw [he, List.range'_succ]
      simp
    · by_cases hs : (s == 200 || s == 201) = true
      · exact ⟨0, Nat.zero_le _, by simp [Pdfs.getGo, h, hs]⟩
      · by_cases hr : (s == 429 || s == 502 || s == 503 || s == 504) = true
        · obtain ⟨k, hk, he⟩ := getGo_backoffs resp f (a + 1) (bs ++ [a])
          refine ⟨k + 1, Nat.succ_le_succ hk, ?_⟩
          simp only [Pdfs.getGo, h, hs, hr, Bool.false_eq_true, if_false,
            if_true]
          rw [he, List.range'_succ]
          simp
        · exact ⟨0, Nat.zero_le _, by simp [Pdfs.getGo, h, hs, hr]⟩

/-- The HTTP scenario of the claim: 503 on the first two attempts, 200 on
the third. -/
def resp503 : Nat → Option Nat :=
  fun n => if n == 1 || n == 2 then some 503 else some 200

/-- An output directory with no files yet. -/
def fsEmpty : String → Option Nat := fun _ => none

/-- C6 (amended) — bounded retry with increasing backoff exists only in
the deprecated requests-based script: its `get` performs at most `RETRY=3`
attempts whose backoff multipliers are the consecutive prefix `1, 2, …` of
the attempt numbers (strictly increasing), and on the 503/503/200 scenario
it returns the 200 response after backoffs `[1, 2]`, so `download_pdf`
ends with status `downloaded` — not an error.  The v8 script has no retry
at all (see the counterexample). -/
theorem C6_amended_retry_in_pdfs_only :
    (∀ resp : Nat → Option Nat,
      (Pdfs.get resp).2 = [] ∨ (Pdfs.get resp).2 = [1] ∨
      (Pdfs.get resp).2 = [1, 2] ∨ (Pdfs.get resp).2 = [1, 2, 3]) ∧
    Pdfs.get resp503 = (some 200, [1, 2]) ∧
    Pdfs.download_pdf fsEmpty resp503 "data/raw_pdfs" "https://x/a.pdf" =
      (some "data/raw_pdfs/a.pdf", "downloaded", true) := by
  refine ⟨?_, by decide, by decide⟩
  intro resp
  obtain ⟨k, hk, he⟩ := getGo_backoffs resp 3 1 []
  have he' : (Pdfs.get resp).2 = List.range' 1 k := by
    simpa [Pdfs.get, Pdfs.RETRY] using he
  interval_cases k
  · left; simpa using he'
  · right; left; simpa using he'
  · right; right; left; simpa using he'
  · right; right; right; simpa using he'

/-! ## Claim C7: fingerprint sensitivity -/

/-- A site whose first index page lists entity `F1` under two URL
variants, and whose second page lists `F1` under a single URL. -/
def envC7 : SiteEnv :=
  { primaryLinks := fun n =>
      if n = 1 then ["https://a/F1_en", "https://b/F1_en"]
      else ["https://c/F1_en"],
    fallbackLinks := fun _ => [],
    detail := fun _ =>
      { navRaises := false, postRaises := false, hasControl := false, clickDownload := none,
        visibleText := "", metaTitle := "", metaSubmitter := none,
        metaDate := none, anchors := [] } }

/-- C7 counterexample — the claim as stated is false: two index pages with
identical entity-id sets (both expose exactly `{F1}`) produce different
fingerprints, because the fingerprint is the sorted tuple of ids of the
(URL-)deduplicated links and therefore keeps id multiplicity: two URL
variants of the same entity yield `("F1", "F1")` while a single URL
yields `("F1")`. -/
theorem C7_counterexample :
    get_detail_links_on_index envC7 1 =
      ["https://a/F1_en", "https://b/F1_en"] ∧
    get_detail_links_on_index envC7 2 = ["https://c/F1_en"] ∧
    page_fingerprint ["https://a/F1_en", "https://b/F1_en"] = ["F1", "F1"] ∧
    page_fingerprint ["https://c/F1_en"] = ["F1"] ∧
    (["https://a/F1_en", "https://b/F1_en"].map detail_id_from_url).dedup =
      (["https://c/F1_en"].map detail_id_from_url).dedup ∧
    page_fingerprint ["https://a/F1_en", "https://b/F1_en"] ≠
      page_fingerprint ["https://c/F1_en"] := by
  decide

/-- C7 (amended) — the fingerprint is a function of the page's *multiset*
of entity ids: two link lists whose id lists are permutations of each
other (any link order, any URL variants that preserve id multiplicity)
get equal fingerprints, and two link lists with equal fingerprints expose
exactly the same id *set* — so pages differing by even one id always get
different fingerprints.  Id multiplicity matters: see the
counterexample. -/
theorem C7_amended_fingerprint_multiset (l1 l2 : List String) :
    ((l1.map detail_id_from_url).Perm (l2.map detail_id_from_url) →
      page_fingerprint l1 = page_fingerprint l2) ∧
    (page_fingerprint l1 = page_fingerprint l2 →
      ∀ id, id ∈ l1.map detail_id_from_url ↔ id ∈ l2.map detail_id_from_url) := by
  constructor
  · intro h
    exact sortStrs_eq_of_perm h
  · intro h id
    have h' : sortStrs (l1.map detail_id_from_url) =
        sortStrs (l2.map detail_id_from_url) := h
    constructor
    · intro hm
      exact mem_sortStrs.mp (h' ▸ mem_sortStrs.mpr hm)
    · intro hm
      exact mem_sortStrs.mp (h'.symm ▸ mem_sortStrs.mpr hm)

theorem C7_witness :
    page_fingerprint ["https://a/F1_en", "https://b/F2_en"] =
      page_fingerprint ["https://c/F2_en", "https://d/F1_en"] ∧
    (∀ id, id ∈ (["https://a/F1_en", "https://b/F2_en"].map
        detail_id_from_url) ↔
      id ∈ (["https://c/F2_en", "https://d/F1_en"].map
        detail_id_from_url)) := by
  constructor
  · exact (C7_amended_fingerprint_multiset
      ["https://a/F1_en", "https://b/F2_en"]
      ["https://c/F2_en", "https://d/F1_en"]).1 (by decide)
  · exact (C7_amended_fingerprint_multiset
      ["https://a/F1_en", "https://b/F2_en"]
      ["https://c/F2_en", "https://d/F1_en"]).2 (by decide)

/-! ## Claim C8: artifact naming and the default-to-PDF policy -/

/-- A v8 detail page whose captured download suggests the name
`report.docx`. -/
def pgDocx : DetailPage :=
  { navRaises := false, postRaises := false, hasControl := true,
    clickDownload := some "report.docx", visibleText := "",
    metaTitle := "", metaSubmitter := none, metaDate := none, anchors := [] }

/-- A v7 detail page with one control whose captured download suggests
`report.docx`. -/
def pgV7Docx : V7.Page :=
  { controls := [some { url := "https://x/dl", suggested := "report.docx" }],
    cssHits := [], fetch := fun _ => none }

/-- C8 — naming is deterministic from the entity id and the sanitized
suggested name in both scripts, but the default-to-PDF policy of the
claim (`.pdf` appended only when no file-type suffix is resolvable) is
implemented only by the deprecated v7: for the suggested name
`report.docx`, v8 — despite its own comment `enforce .pdf extension if
missing` — appends `.pdf` to a name whose `.docx` suffix is perfectly
resolvable, saving `F123__report.docx.pdf`, while v7 recognises `.docx`
via its `FILE_EXT` regex and keeps `report.docx` unchanged. -/
theorem C8_naming_divergence :
    try_click_download pgDocx "data/pdfs" "F123" =
      (some "data/pdfs/F123__report.docx.pdf",
        ["data/pdfs/F123__report.docx.pdf"]) ∧
    V7.fileExtB "report.docx" = true ∧
    V7.click_and_capture_downloads pgV7Docx "https://x/F123_en" =
      (true,
        [{ found_on := "detail_click", detail_page := "https://x/F123_en",
           file_url := "https://x/dl",
           local_file := "data/raw_pdfs/report.docx",
           status := "downloaded" }]) := by
  decide
